import Mathlib

/-!
Shallow embedding of the Llama.io task-management API routes
(src/routes/home.js) together with the User and Task schemas.

The mutable MongoDB state is modelled as an explicit `DB` value; every
route handler is a pure function from the current `DB` and the request
body to a `RouteResult` holding the HTTP outcome, the new `DB`, and the
ordered list of primitive store writes (`StoreOp`) the handler issued.
JavaScript request-body values are modelled by `JsValue` (the subset of
JS values the routes inspect), and JS truthiness / strict equality are
made explicit.
-/

/-- Subset of JavaScript values that can appear in a request body field. -/
inductive JsValue where
  | undef
  | nullV
  | bool (b : Bool)
  | num (n : Int)
  | str (s : String)
  deriving DecidableEq, Repr

/-- JavaScript truthiness for `JsValue` (used by `if (x)` guards). -/
def jsTruthy : JsValue → Bool
  | JsValue.undef => false
  | JsValue.nullV => false
  | JsValue.bool b => b
  | JsValue.num n => n != 0
  | JsValue.str s => s != ""

/-- A stored Task document (models/task.js schema; the POST handler also
writes a `description` but the schema has no such field, so it is not
stored). `deadline` is kept as the JS value the route computed. -/
structure TaskDoc where
  id : String
  name : String
  deadline : JsValue
  completed : Bool
  assignedUser : String
  assignedUserName : String
  deriving DecidableEq, Repr

/-- A stored User document (models/user.js schema). -/
structure User where
  id : String
  name : String
  email : String
  pendingTasks : List String
  deriving DecidableEq, Repr

/-- The database state: the two MongoDB collections. -/
structure DB where
  users : List User
  tasks : List TaskDoc
  deriving DecidableEq, Repr

/-- `User.findById` (ids are unique in MongoDB, so first match). -/
def findUser (db : DB) (uid : String) : Option User :=
  db.users.find? (fun u => u.id == uid)

/-- `Task.findById`. -/
def findTask (db : DB) (tid : String) : Option TaskDoc :=
  db.tasks.find? (fun t => t.id == tid)

/-- `$addToSet` on a string array: append only when absent. -/
def addToSet (l : List String) (x : String) : List String :=
  if l.contains x then l else l ++ [x]

/-- Primitive store writes issued by the route handlers, in the order the
source issues them. -/
inductive StoreOp where
  /-- `Task.updateMany({_id:{$in:ids}}, {$set:{assignedUser,assignedUserName}})` -/
  | taskSetAssign (ids : List String) (uid uname : String)
  /-- `Task.updateMany({_id:{$in:ids}}, {$set:{assignedUser:"",assignedUserName:"unassigned"}})` -/
  | taskUnassign (ids : List String)
  /-- `User.findByIdAndUpdate(uid, replacement, {overwrite:true})` -/
  | userReplace (uid : String) (name email : String) (pending : List String)
  /-- `User.findByIdAndDelete(uid)` -/
  | userDelete (uid : String)
  /-- `User.findByIdAndUpdate(uid, {$pull:{pendingTasks:tid}})` -/
  | userPull (uid tid : String)
  /-- `User.findByIdAndUpdate(uid, {$addToSet:{pendingTasks:tid}})` -/
  | userAddToSet (uid tid : String)
  /-- `Task.findByIdAndUpdate(tid, replacement, {overwrite:true})` -/
  | taskReplace (tid : String) (t : TaskDoc)
  /-- `newTask.save()` -/
  | taskInsert (t : TaskDoc)
  /-- `Task.findByIdAndDelete(tid)` -/
  | taskDelete (tid : String)
  deriving DecidableEq, Repr

/-- Effect of one primitive store write on the database state. -/
def applyOp (db : DB) (op : StoreOp) : DB :=
  match op with
  | StoreOp.taskSetAssign ids uid uname =>
      { db with tasks := db.tasks.map fun t =>
          if ids.contains t.id then { t with assignedUser := uid, assignedUserName := uname } else t }
  | StoreOp.taskUnassign ids =>
      { db with tasks := db.tasks.map fun t =>
          if ids.contains t.id then { t with assignedUser := "", assignedUserName := "unassigned" } else t }
  | StoreOp.userReplace uid name email pending =>
      { db with users := db.users.map fun u =>
          if u.id == uid then { u with name := name, email := email, pendingTasks := pending } else u }
  | StoreOp.userDelete uid =>
      { db with users := db.users.filter (fun u => u.id != uid) }
  | StoreOp.userPull uid tid =>
      { db with users := db.users.map fun u =>
          if u.id == uid then { u with pendingTasks := u.pendingTasks.filter (fun x => x != tid) } else u }
  | StoreOp.userAddToSet uid tid =>
      { db with users := db.users.map fun u =>
          if u.id == uid then { u with pendingTasks := addToSet u.pendingTasks tid } else u }
  | StoreOp.taskReplace tid t =>
      { db with tasks := db.tasks.map fun x => if x.id == tid then t else x }
  | StoreOp.taskInsert t =>
      { db with tasks := db.tasks ++ [t] }
  | StoreOp.taskDelete tid =>
      { db with tasks := db.tasks.filter (fun t => t.id != tid) }

/-- Outcomes of the route handlers; each constructor corresponds to one
`res.status(..).json(..)` site of src/routes/home.js. -/
inductive Resp where
  /-- 200, replacement succeeded -/
  | ok
  /-- 201, creation succeeded -/
  | created
  /-- 204, deletion succeeded -/
  | noContent
  /-- 400, required fields missing -/
  | requiredFieldsError
  /-- 400, cannot add completed tasks to pendingTasks (PUT /users/:id) -/
  | completedTasksError
  /-- 404, user id not found -/
  | userNotFound
  /-- 404, task id not found -/
  | taskNotFound
  /-- 404, cannot assign task to a user that does not exist -/
  | assignedUserMissing
  /-- 400, assignedUserName does not match the user name -/
  | nameMismatchError
  /-- 400, assignedUserName must be "unassigned" when assignedUser is not provided -/
  | unassignedNameError
  /-- 400, cannot update a task that is already completed -/
  | alreadyCompletedError
  /-- 400, mongoose cast/validation failure while writing the document -/
  | castError
  deriving DecidableEq, Repr

/-- HTTP status code of each outcome, as mapped by src/routes/home.js. -/
def statusOf : Resp → Nat
  | Resp.ok => 200
  | Resp.created => 201
  | Resp.noContent => 204
  | Resp.requiredFieldsError => 400
  | Resp.completedTasksError => 400
  | Resp.userNotFound => 404
  | Resp.taskNotFound => 404
  | Resp.assignedUserMissing => 404
  | Resp.nameMismatchError => 400
  | Resp.unassignedNameError => 400
  | Resp.alreadyCompletedError => 400
  | Resp.castError => 400

/-- Result of running a route handler: outcome, resulting database state,
and the ordered store writes the handler issued. -/
structure RouteResult where
  resp : Resp
  db : DB
  ops : List StoreOp
  deriving DecidableEq, Repr

/-- JavaScript `parseInt` on a string, restricted to decimal input
(leading whitespace, optional sign, leading digit run; the `0x` radix
prefix is never exercised by the routes and is not modelled).
`none` models the NaN result. -/
def jsParseIntCore (s : String) : Option Int :=
  let t := s.toList.dropWhile (fun c => c == ' ')
  let signAndRest : Int × List Char :=
    match t with
    | '-' :: r => (-1, r)
    | '+' :: r => (1, r)
    | r => (1, r)
  let digits := signAndRest.2.takeWhile (fun c => c.isDigit)
  if digits.isEmpty then none
  else some (signAndRest.1 * (Int.ofNat (digits.foldl (fun a c => a * 10 + (c.toNat - 48)) 0)))

/-- JavaScript `parseFloat` as used for deadlines, truncated to the
integral part (the routes only feed the value to `new Date`, whose
sub-millisecond fraction is irrelevant). `none` models NaN. -/
def jsParseFloatCore (s : String) : Option Int :=
  jsParseIntCore s

/-- Request body of `POST /users` and `PUT /users/:id`. An empty string
models a missing/empty (falsy) `name`/`email`; `pendingTasks = none`
models a value that is not an array (`Array.isArray` check). -/
structure UserBody where
  name : String
  email : String
  pendingTasks : Option (List String)
  deriving DecidableEq, Repr

/-- Request body of `POST /tasks` and `PUT /tasks/:id`. An empty string
models a missing/empty (falsy) `name`/`assignedUser`. -/
structure TaskBody where
  name : String
  deadline : JsValue
  completed : JsValue
  assignedUser : String
  assignedUserName : JsValue
  deriving DecidableEq, Repr

/-- `POST /tasks` line 468: `const completedStatus = (req.body.completed === 'true')`.
Strict equality with the string literal, so a JS boolean is never equal. -/
def createCompletedStatus (v : JsValue) : Bool :=
  v == JsValue.str "true"

/-- `PUT /tasks/:id` lines 616-619: a string value is coerced with
`=== 'true'`; every non-string value is passed through unchanged. -/
def replaceCompletedStatus (v : JsValue) : JsValue :=
  match v with
  | JsValue.str s => JsValue.bool (s == "true")
  | v => v

/-- `PUT /tasks/:id` lines 608-614: a string deadline is replaced by
`new Date(parseFloat(s))` when that yields a valid date, otherwise kept. -/
def sanitizeDeadlineReplace (v : JsValue) : JsValue :=
  match v with
  | JsValue.str s =>
      match jsParseFloatCore s with
      | some n => JsValue.num n
      | none => JsValue.str s
  | v => v

/-- `POST /tasks` lines 455-464: numeric or numeric-string deadlines take
the numeric interpretation; otherwise the value is handed to `new Date`
as a date string (kept symbolic here — no claim inspects the result). -/
def createDeadline (v : JsValue) : JsValue :=
  match v with
  | JsValue.num n => JsValue.num n
  | JsValue.str s =>
      match jsParseFloatCore s with
      | some n => JsValue.num n
      | none => JsValue.str s
  | v => v

/-- Modelled from the spec: mongoose casting of the `completed` value at
the storage layer (the Task schema declares `completed: Boolean` with
default `false`; the repository does not contain mongoose). Booleans and
the usual boolean-like literals cast, an absent/null value falls back to
the schema default, anything else is a cast error. -/
def castStoreBool : JsValue → Option Bool
  | JsValue.bool b => some b
  | JsValue.str s =>
      if s == "true" || s == "1" || s == "yes" then some true
      else if s == "false" || s == "0" || s == "no" then some false
      else none
  | JsValue.num n =>
      if n == 1 then some true else if n == 0 then some false else none
  | JsValue.undef => some false
  | JsValue.nullV => some false

/-- Modelled from the spec: mongoose storage of the `assignedUserName`
value carried through `{...req.body}` on task replacement — a string is
stored as-is, an absent value falls back to the schema default. -/
def castStoreName : JsValue → String
  | JsValue.str s => s
  | _ => "unassigned"

/-- `POST /tasks` / `PUT /tasks/:id` assigned-user validation.
For a truthy `assignedUser`: the user must exist (404) and the supplied
`assignedUserName` must be strictly equal to the user's name (400);
on success the user's name is returned as `validUserName`.
For a falsy `assignedUser` the create handler just returns "unassigned"
(`checkUnassignedName = false`), while the replace handler additionally
rejects a truthy `assignedUserName` different from "unassigned"
(`checkUnassignedName = true`, lines 640-648). -/
def taskUserCheck (db : DB) (body : TaskBody) (checkUnassignedName : Bool) :
    Except Resp String :=
  if body.assignedUser != "" then
    match findUser db body.assignedUser with
    | none => Except.error Resp.assignedUserMissing
    | some u =>
        if body.assignedUserName != JsValue.str u.name then
          Except.error Resp.nameMismatchError
        else Except.ok u.name
  else
    if checkUnassignedName &&
        (jsTruthy body.assignedUserName && body.assignedUserName != JsValue.str "unassigned") then
      Except.error Resp.unassignedNameError
    else Except.ok "unassigned"

/-- `PUT /tasks/:id` lines 676-692, "Case 1: User assignment changed":
the compensating writes for a changed `assignedUser`. -/
def userCompOps (oldUserId newUserId tid : String) (nowCompleted : JsValue) :
    List StoreOp :=
  if oldUserId != newUserId then
    (if oldUserId != "" then [StoreOp.userPull oldUserId tid] else []) ++
    (if newUserId != "" && !(jsTruthy nowCompleted) then [StoreOp.userAddToSet newUserId tid] else [])
  else []

/-- `PUT /tasks/:id` lines 694-710, "Case 2: Task status changed":
the compensating writes for a changed `completed` status. The comparison
`wasCompleted !== nowCompleted` is JS strict inequality between the
stored boolean and the (possibly non-boolean) sanitized body value. -/
def completionCompOps (oldUserId newUserId tid : String) (wasCompleted : Bool)
    (nowCompleted : JsValue) : List StoreOp :=
  if JsValue.bool wasCompleted != nowCompleted && (newUserId != "" || oldUserId != "") then
    let relevantUserId := if newUserId != "" then newUserId else oldUserId
    if jsTruthy nowCompleted then [StoreOp.userPull relevantUserId tid]
    else [StoreOp.userAddToSet relevantUserId tid]
  else []

/-- `PUT /users/:id` (src/routes/home.js lines 223-325). -/
def replaceUser (db : DB) (uid : String) (body : UserBody) : RouteResult :=
  if body.name == "" || body.email == "" then
    { resp := Resp.requiredFieldsError, db := db, ops := [] }
  else
    let newTasks := body.pendingTasks.getD []
    match findUser db uid with
    | none => { resp := Resp.userNotFound, db := db, ops := [] }
    | some oldUser =>
        let oldTasks := oldUser.pendingTasks
        let addedTasks := newTasks.filter (fun t => !(oldTasks.contains t))
        let completedAdded := db.tasks.filter (fun t => addedTasks.contains t.id && t.completed)
        if !completedAdded.isEmpty then
          { resp := Resp.completedTasksError, db := db, ops := [] }
        else
          let removedTasks := oldTasks.filter (fun t => !(newTasks.contains t))
          let ops :=
            (if !addedTasks.isEmpty then [StoreOp.taskSetAssign addedTasks oldUser.id body.name] else []) ++
            (if !removedTasks.isEmpty then [StoreOp.taskUnassign removedTasks] else []) ++
            [StoreOp.userReplace uid body.name body.email newTasks]
          { resp := Resp.ok, db := ops.foldl applyOp db, ops := ops }

/-- `DELETE /users/:id` (src/routes/home.js lines 332-376). The handler
deletes the user document first and only then unassigns the tasks that
were pending for it. -/
def deleteUser (db : DB) (uid : String) : RouteResult :=
  match findUser db uid with
  | none => { resp := Resp.userNotFound, db := db, ops := [] }
  | some deletedUser =>
      let ops :=
        [StoreOp.userDelete uid] ++
        (if !deletedUser.pendingTasks.isEmpty then [StoreOp.taskUnassign deletedUser.pendingTasks] else [])
      { resp := Resp.noContent, db := ops.foldl applyOp db, ops := ops }

/-- `POST /tasks` (src/routes/home.js lines 440-539). `freshId` models
the ObjectId MongoDB generates for the inserted document. -/
def createTask (db : DB) (freshId : String) (body : TaskBody) : RouteResult :=
  if body.name == "" || !(jsTruthy body.deadline) then
    { resp := Resp.requiredFieldsError, db := db, ops := [] }
  else
    let completedStatus := createCompletedStatus body.completed
    match taskUserCheck db body false with
    | Except.error r => { resp := r, db := db, ops := [] }
    | Except.ok validUserName =>
        let newTask : TaskDoc :=
          { id := freshId, name := body.name, deadline := createDeadline body.deadline,
            completed := completedStatus, assignedUser := body.assignedUser,
            assignedUserName := validUserName }
        let ops :=
          [StoreOp.taskInsert newTask] ++
          (if newTask.assignedUser != "" && !newTask.completed then
            [StoreOp.userAddToSet newTask.assignedUser freshId] else [])
        { resp := Resp.created, db := ops.foldl applyOp db, ops := ops }

/-- `PUT /tasks/:id` (src/routes/home.js lines 597-746). Compensating
writes are issued before the primary replacement, so they persist even
when the final cast/validation of the replacement document fails. -/
def replaceTask (db : DB) (tid : String) (body : TaskBody) : RouteResult :=
  if body.name == "" || !(jsTruthy body.deadline) then
    { resp := Resp.requiredFieldsError, db := db, ops := [] }
  else
    let completedStatus := replaceCompletedStatus body.completed
    match taskUserCheck db body true with
    | Except.error r => { resp := r, db := db, ops := [] }
    | Except.ok _ =>
        match findTask db tid with
        | none => { resp := Resp.taskNotFound, db := db, ops := [] }
        | some oldTask =>
            if oldTask.completed then
              { resp := Resp.alreadyCompletedError, db := db, ops := [] }
            else
              let oldUserId := oldTask.assignedUser
              let newUserId := body.assignedUser
              let compOps :=
                userCompOps oldUserId newUserId tid completedStatus ++
                completionCompOps oldUserId newUserId tid oldTask.completed completedStatus
              match castStoreBool completedStatus with
              | none =>
                  { resp := Resp.castError, db := compOps.foldl applyOp db, ops := compOps }
              | some c =>
                  let newTask : TaskDoc :=
                    { id := tid, name := body.name,
                      deadline := sanitizeDeadlineReplace body.deadline,
                      completed := c, assignedUser := body.assignedUser,
                      assignedUserName := castStoreName body.assignedUserName }
                  let ops := compOps ++ [StoreOp.taskReplace tid newTask]
                  { resp := Resp.ok, db := ops.foldl applyOp db, ops := ops }

/-- A JSON syntax tree, the result of a successful `JSON.parse` on a
`where`/`sort`/`select` query parameter. -/
inductive Json where
  | nullJ
  | boolJ (b : Bool)
  | numJ (n : Int)
  | strJ (s : String)
  | arrJ (l : List Json)
  | objJ (l : List (String × Json))

/-- A JS number produced by `parseInt`: an integer or NaN. -/
inductive JsNum where
  | int (n : Int)
  | nan
  deriving DecidableEq, Repr

/-- `parseInt` packaged as a `JsNum` (NaN when no digits were found). -/
def jsParseIntNum (s : String) : JsNum :=
  match jsParseIntCore s with
  | some n => JsNum.int n
  | none => JsNum.nan

/-- A primitive query-parameter value. HTTP query parameters are strings;
the Task list handler additionally injects the JS number `100` as a
default `limit` before calling `parseQuery`. -/
inductive JsPrim where
  | str (s : String)
  | num (n : Int)
  deriving DecidableEq, Repr

/-- JS truthiness of a primitive query-parameter value. -/
def jsTruthyPrim : JsPrim → Bool
  | JsPrim.str s => s != ""
  | JsPrim.num n => n != 0

/-- `parseInt` applied to a primitive value (a JS number is first
converted to its decimal string, which parses back to itself). -/
def jsParseIntPrim : JsPrim → JsNum
  | JsPrim.str s => jsParseIntNum s
  | JsPrim.num n => JsNum.int n

/-- The `req.query` mapping as consumed by the list handlers; `none`
models an absent parameter. -/
structure QueryParams where
  whereQ : Option String := none
  sortQ : Option String := none
  selectQ : Option String := none
  skipQ : Option String := none
  limitQ : Option JsPrim := none
  countQ : Option String := none
  deriving DecidableEq, Repr

/-- The read specification accumulated on the mongoose query object by
`parseQuery`: each clause is either absent or holds exactly the value
the source passed to `query.where/sort/select/skip/limit`. -/
structure ReadSpec where
  whereJson : Option Json := none
  sortJson : Option Json := none
  selectJson : Option Json := none
  skipNum : Option JsNum := none
  limitNum : Option JsNum := none

/-- The `console.warn` messages `parseQuery` can record. -/
inductive Warn where
  | badWhere
  | badSort
  | badSelect
  deriving DecidableEq, Repr

/-- `parseQuery` (src/routes/home.js lines 13-53). `jp` is the external
`JSON.parse`, with `none` modelling a thrown `SyntaxError` (which the
source catches, records a warning for, and otherwise ignores). `skip`
and `limit` go through `parseInt` unguarded, so an unparseable value
puts NaN — not a default — into the specification. The function is
total: no parameter value makes it fail. -/
def parseQuery (jp : String → Option Json) (qp : QueryParams) :
    ReadSpec × List Warn :=
  let wq : Option Json × List Warn :=
    match qp.whereQ with
    | some s =>
        if s != "" then
          match jp s with
          | some j => (some j, [])
          | none => (none, [Warn.badWhere])
        else (none, [])
    | none => (none, [])
  let sq : Option Json × List Warn :=
    match qp.sortQ with
    | some s =>
        if s != "" then
          match jp s with
          | some j => (some j, [])
          | none => (none, [Warn.badSort])
        else (none, [])
    | none => (none, [])
  let seq : Option Json × List Warn :=
    match qp.selectQ with
    | some s =>
        if s != "" then
          match jp s with
          | some j => (some j, [])
          | none => (none, [Warn.badSelect])
        else (none, [])
    | none => (none, [])
  let sk : Option JsNum :=
    match qp.skipQ with
    | some s => if s != "" then some (jsParseIntNum s) else none
    | none => none
  let li : Option JsNum :=
    match qp.limitQ with
    | some p => if jsTruthyPrim p then some (jsParseIntPrim p) else none
    | none => none
  ({ whereJson := wq.1, sortJson := sq.1, selectJson := seq.1,
     skipNum := sk, limitNum := li },
   wq.2 ++ sq.2 ++ seq.2)

/-- External semantics of the store-side query pieces for documents of
type `α`: the meaning of a `where` filter, a `sort` comparator and a
`select` projection. These live in mongoose/MongoDB, outside the
repository, so they are kept abstract. -/
structure StoreSem (α : Type) where
  whereMatch : Json → α → Bool
  sortLe : Json → α → α → Bool
  project : Json → α → α

/-- Insertion of one element into a list sorted by `le`. -/
def insertLe {α : Type} (le : α → α → Bool) (x : α) : List α → List α
  | [] => [x]
  | y :: ys => if le x y then x :: y :: ys else y :: insertLe le x ys

/-- Insertion sort by a boolean comparator (stands in for the store's
sort; only that it reorders — preserves length — matters here). -/
def sortByLe {α : Type} (le : α → α → Bool) : List α → List α
  | [] => []
  | x :: xs => insertLe le x (sortByLe le xs)

/-- Modelled from the spec: execution of a read specification by the
external Entity Store (mongoose/MongoDB, not part of the repository):
filter, then sort, then skip, then limit, then projection, as list
operations. Per the spec a NaN `skip` is treated as zero and a NaN
`limit` as the absent default (no cap); a negative value clamps to 0. -/
def applySpec {α : Type} (S : StoreSem α) (spec : ReadSpec) (docs : List α) :
    List α :=
  let f :=
    match spec.whereJson with
    | some j => docs.filter (S.whereMatch j)
    | none => docs
  let so :=
    match spec.sortJson with
    | some j => sortByLe (S.sortLe j) f
    | none => f
  let sk :=
    match spec.skipNum with
    | some (JsNum.int n) => so.drop n.toNat
    | some JsNum.nan => so
    | none => so
  let li :=
    match spec.limitNum with
    | some (JsNum.int n) => sk.take n.toNat
    | some JsNum.nan => sk
    | none => sk
  match spec.selectJson with
  | some j => li.map (S.project j)
  | none => li

/-- Modelled from the spec: the count-only read returns the number of
matches; per the spec, skip and limit do not affect the count. -/
def countSpec {α : Type} (S : StoreSem α) (spec : ReadSpec) (docs : List α) :
    Nat :=
  match spec.whereJson with
  | some j => (docs.filter (S.whereMatch j)).length
  | none => docs.length

/-- Result of a list read: the documents, or the count when `count=true`. -/
inductive ListOut (α : Type) where
  | docs (l : List α)
  | countN (n : Nat)
  deriving DecidableEq, Repr

/-- The documents of a list read (empty for a count-only read). -/
def docsOf {α : Type} : ListOut α → List α
  | ListOut.docs l => l
  | ListOut.countN _ => []

/-- The documents matching a list request, in the sense of C8: the
`where` filter applied when present and well-formed, all documents
otherwise (absent, empty or malformed filter). -/
def matchingDocs {α : Type} (S : StoreSem α) (jp : String → Option Json)
    (qp : QueryParams) (docs : List α) : List α :=
  match qp.whereQ with
  | some s =>
      if s != "" then
        match jp s with
        | some j => docs.filter (S.whereMatch j)
        | none => docs
      else docs
  | none => docs

/-- `GET /users` (src/routes/home.js lines 72-110): no default limit. -/
def getUsers (S : StoreSem User) (jp : String → Option Json) (db : DB)
    (qp : QueryParams) : ListOut User × List Warn :=
  let pq := parseQuery jp qp
  if qp.countQ == some "true" then (ListOut.countN (countSpec S pq.1 db.users), pq.2)
  else (ListOut.docs (applySpec S pq.1 db.users), pq.2)

/-- `GET /tasks` (src/routes/home.js lines 387-432): when the `limit`
parameter is falsy the handler injects the JS number 100 into the copied
query parameters before calling `parseQuery`. -/
def getTasks (S : StoreSem TaskDoc) (jp : String → Option Json) (db : DB)
    (qp : QueryParams) : ListOut TaskDoc × List Warn :=
  let qp2 :=
    if (match qp.limitQ with | some p => jsTruthyPrim p | none => false) then qp
    else { qp with limitQ := some (JsPrim.num 100) }
  let pq := parseQuery jp qp2
  if qp.countQ == some "true" then (ListOut.countN (countSpec S pq.1 db.tasks), pq.2)
  else (ListOut.docs (applySpec S pq.1 db.tasks), pq.2)

/-- True when, in a write trace, every task-unassign write precedes the
(first) user-deletion write — the ordering C4 asserts for DELETE /users/:id. -/
def unassignsPrecedeDelete (ops : List StoreOp) : Bool :=
  match ops.findIdx? (fun op => match op with | StoreOp.userDelete _ => true | _ => false),
        ops.findIdx? (fun op => match op with | StoreOp.taskUnassign _ => true | _ => false) with
  | some i, some j => j < i
  | _, _ => true

/-- True for the `$addToSet` write on a user's pendingTasks. -/
def isAddToSetOp : StoreOp → Bool
  | StoreOp.userAddToSet _ _ => true
  | _ => false

/-- Fixture: user Alice with task t1 pending. -/
def userAlice : User :=
  { id := "u1", name := "Alice", email := "a@x.com", pendingTasks := ["t1"] }

/-- Fixture: user Bob with no pending tasks. -/
def userBob : User :=
  { id := "u2", name := "Bob", email := "b@x.com", pendingTasks := [] }

/-- Fixture: an open task assigned to Alice. -/
def taskOne : TaskDoc :=
  { id := "t1", name := "TaskOne", deadline := JsValue.num 1, completed := false,
    assignedUser := "u1", assignedUserName := "Alice" }

/-- Fixture: a completed, unassigned task. -/
def taskTwo : TaskDoc :=
  { id := "t2", name := "TaskTwo", deadline := JsValue.num 2, completed := true,
    assignedUser := "", assignedUserName := "unassigned" }

/-- Fixture database with two users and two tasks. -/
def dbA : DB := { users := [userAlice, userBob], tasks := [taskOne, taskTwo] }

/-- Fixture: 150 open unassigned tasks, to exercise the default limit. -/
def manyTasks : List TaskDoc :=
  (List.range 150).map fun i =>
    { id := toString i, name := "T", deadline := JsValue.num 1, completed := false,
      assignedUser := "", assignedUserName := "unassigned" }

/-- Fixture database holding 150 tasks and no users. -/
def dbMany : DB := { users := [], tasks := manyTasks }

/-- Trivial store semantics for users (every document matches). -/
def semTrivUser : StoreSem User :=
  { whereMatch := fun _ _ => true, sortLe := fun _ _ _ => true, project := fun _ u => u }

/-- Trivial store semantics for tasks (every document matches). -/
def semTrivTask : StoreSem TaskDoc :=
  { whereMatch := fun _ _ => true, sortLe := fun _ _ _ => true, project := fun _ t => t }

/-- A `JSON.parse` that fails on every input. -/
def jpNone : String → Option Json := fun _ => none

/-- Fixture: the empty database. -/
def dbEmpty : DB := { users := [], tasks := [] }

/-- Fixture body: replacement that unassigns a task (no assignedUser,
absent assignedUserName, completed kept false). -/
def bodyFive : TaskBody :=
  { name := "X", deadline := JsValue.num 1, completed := JsValue.str "false",
    assignedUser := "", assignedUserName := JsValue.undef }

/-- Fixture body: replacement reassigning a task to Bob. -/
def bodyReassign : TaskBody :=
  { name := "TaskOne", deadline := JsValue.num 1, completed := JsValue.str "false",
    assignedUser := "u2", assignedUserName := JsValue.str "Bob" }

/-- Fixture body: creation of an open task assigned to Bob. -/
def bodyCreate : TaskBody :=
  { name := "N", deadline := JsValue.num 3, completed := JsValue.undef,
    assignedUser := "u2", assignedUserName := JsValue.str "Bob" }

/-- Fixture body: creation with `completed` supplied as the JS boolean true. -/
def bodyBoolTrue : TaskBody :=
  { name := "N", deadline := JsValue.num 1, completed := JsValue.bool true,
    assignedUser := "", assignedUserName := JsValue.undef }

/-- Fixture body: replacement keeping the assigned user but omitting the
`completed` field entirely. -/
def bodyTen : TaskBody :=
  { name := "T2", deadline := JsValue.num 5, completed := JsValue.undef,
    assignedUser := "u1", assignedUserName := JsValue.str "Alice" }

/-- Helper lemmas about the store primitives. -/
theorem find?_map_of_id (g : User → User) (hg : ∀ u, (g u).id = u.id) :
    ∀ (l : List User) (uid : String),
      (l.map g).find? (fun u => u.id == uid) = (l.find? (fun u => u.id == uid)).map g := by
  intro l uid
  induction l with
  | nil => rfl
  | cons a t ih =>
      simp only [List.map_cons, List.find?]
      rw [hg a]
      cases h : (a.id == uid) with
      | false => simpa [h] using ih
      | true => simp [h]

theorem findUser_id (db : DB) (v : String) (u : User) (h : findUser db v = some u) :
    u.id = v := by
  have := List.find?_some h
  simpa using this

theorem findUser_applyOp_userPull (db : DB) (uid tid v : String) :
    findUser (applyOp db (StoreOp.userPull uid tid)) v =
      (findUser db v).map fun u =>
        if u.id == uid then { u with pendingTasks := u.pendingTasks.filter (fun x => x != tid) }
        else u := by
  simp only [applyOp, findUser]
  exact find?_map_of_id _ (by intro u; split <;> rfl) _ _

theorem findUser_applyOp_userAddToSet (db : DB) (uid tid v : String) :
    findUser (applyOp db (StoreOp.userAddToSet uid tid)) v =
      (findUser db v).map fun u =>
        if u.id == uid then { u with pendingTasks := addToSet u.pendingTasks tid }
        else u := by
  simp only [applyOp, findUser]
  exact find?_map_of_id _ (by intro u; split <;> rfl) _ _

theorem findUser_applyOp_taskReplace (db : DB) (tid : String) (t : TaskDoc) (v : String) :
    findUser (applyOp db (StoreOp.taskReplace tid t)) v = findUser db v := rfl

theorem findUser_applyOp_taskInsert (db : DB) (t : TaskDoc) (v : String) :
    findUser (applyOp db (StoreOp.taskInsert t)) v = findUser db v := rfl

theorem addToSet_idem (l : List String) (x : String) :
    addToSet (addToSet l x) x = addToSet l x := by
  by_cases hm : x ∈ l
  · simp [addToSet, hm]
  · simp [addToSet, hm]

theorem mem_addToSet_self (l : List String) (x : String) : x ∈ addToSet l x := by
  by_cases hm : x ∈ l
  · simp [addToSet, hm]
  · simp [addToSet, hm]

theorem addToSet_nodup (l : List String) (x : String) (h : l.Nodup) :
    (addToSet l x).Nodup := by
  unfold addToSet
  cases hc : l.contains x with
  | true => simpa [hc] using h
  | false =>
      have hx : x ∉ l := by
        intro hm
        have h2 : l.contains x = true := List.elem_iff.mpr hm
        rw [hc] at h2
        exact Bool.noConfusion h2
      simp only [hc, Bool.false_eq_true, if_false]
      exact List.Nodup.append h (List.nodup_singleton x) (by simpa using hx)

theorem insertLe_length {α : Type} (le : α → α → Bool) (x : α) (l : List α) :
    (insertLe le x l).length = l.length + 1 := by
  induction l with
  | nil => rfl
  | cons a t ih =>
      unfold insertLe
      split
      · simp
      · simp [ih]

theorem sortByLe_length {α : Type} (le : α → α → Bool) (l : List α) :
    (sortByLe le l).length = l.length := by
  induction l with
  | nil => rfl
  | cons a t ih =>
      unfold sortByLe
      rw [insertLe_length, ih, List.length_cons]

/-- Only the three assigned-user validation outcomes can be produced as
errors by `taskUserCheck`. -/
theorem taskUserCheck_error_cases (db : DB) (body : TaskBody) (b : Bool) (r : Resp)
    (h : taskUserCheck db body b = Except.error r) :
    r = Resp.assignedUserMissing ∨ r = Resp.nameMismatchError ∨ r = Resp.unassignedNameError := by
  unfold taskUserCheck at h
  split at h
  · split at h
    · exact Or.inl (Except.error.inj h).symm
    · split at h
      · exact Or.inr (Or.inl (Except.error.inj h).symm)
      · exact Except.noConfusion h
  · split at h
    · exact Or.inr (Or.inr (Except.error.inj h).symm)
    · exact Except.noConfusion h

/-- C1: a Replace User request on an existing user whose new pendingTasks
would newly add the id of a completed task fails with a ValidationError
(HTTP 400) and leaves the whole database — users and tasks — unchanged,
issuing no store writes. -/
theorem putUser_completedPending_rejected
    (db : DB) (uid : String) (body : UserBody) (oldUser : User) (t : TaskDoc)
    (hfind : findUser db uid = some oldUser)
    (ht : t ∈ db.tasks)
    (hcomp : t.completed = true)
    (hadded : ((body.pendingTasks.getD []).filter
        (fun x => !(oldUser.pendingTasks.contains x))).contains t.id = true) :
    statusOf (replaceUser db uid body).resp = 400 ∧
    (replaceUser db uid body).db = db ∧
    (replaceUser db uid body).ops = [] := by
  unfold replaceUser
  split
  · exact ⟨rfl, rfl, rfl⟩
  · rw [hfind]
    have hmem : t ∈ db.tasks.filter
        (fun tk => ((body.pendingTasks.getD []).filter
          (fun x => !(oldUser.pendingTasks.contains x))).contains tk.id && tk.completed) := by
      rw [List.mem_filter]
      refine ⟨ht, ?_⟩
      rw [hadded, hcomp]
      rfl
    have hb : (db.tasks.filter
        (fun tk => ((body.pendingTasks.getD []).filter
          (fun x => !(oldUser.pendingTasks.contains x))).contains tk.id && tk.completed)).isEmpty
        = false := by
      cases hh : (db.tasks.filter
        (fun tk => ((body.pendingTasks.getD []).filter
          (fun x => !(oldUser.pendingTasks.contains x))).contains tk.id && tk.completed)).isEmpty
      · rfl
      · rw [List.isEmpty_iff] at hh
        rw [hh] at hmem
        exact absurd hmem (List.not_mem_nil t)
    split
    · next hno => exact Option.noConfusion hno
    · next u hsome =>
        injection hsome with he
        subst he
        dsimp only
        split
        · exact ⟨rfl, rfl, rfl⟩
        · next h2 => exact absurd (by rw [hb]; rfl) h2

/-- Witness for the C1 theorem at a concrete database: replacing Bob's
pendingTasks with the already-completed task t2 is rejected with a 400
and changes nothing. -/
theorem putUser_completedPending_rejected_witness :
    findUser dbA "u2" = some userBob ∧ taskTwo ∈ dbA.tasks ∧ taskTwo.completed = true ∧
    ((((some ["t2"] : Option (List String)).getD []).filter
        (fun x => !(userBob.pendingTasks.contains x))).contains taskTwo.id = true) ∧
    (statusOf (replaceUser dbA "u2"
        { name := "Bob", email := "b@x.com", pendingTasks := some ["t2"] }).resp = 400 ∧
      (replaceUser dbA "u2"
        { name := "Bob", email := "b@x.com", pendingTasks := some ["t2"] }).db = dbA ∧
      (replaceUser dbA "u2"
        { name := "Bob", email := "b@x.com", pendingTasks := some ["t2"] }).ops = []) :=
  ⟨by decide, by decide, by decide, by decide,
    putUser_completedPending_rejected dbA "u2"
      { name := "Bob", email := "b@x.com", pendingTasks := some ["t2"] } userBob taskTwo
      (by decide) (by decide) (by decide) (by decide)⟩

/-- C4 (amended): DELETE /users/:id on an existing user deletes the User
document first and only afterwards unassigns the tasks listed in its
pendingTasks; the final state has the user gone and every such task
unassigned, and a non-existent id yields NotFound with no writes. -/
theorem deleteUser_deletesThenUnassigns (db : DB) (uid : String) :
    (findUser db uid = none →
      deleteUser db uid = { resp := Resp.userNotFound, db := db, ops := [] }) ∧
    (∀ u, findUser db uid = some u →
      (deleteUser db uid).resp = Resp.noContent ∧
      (deleteUser db uid).ops =
        [StoreOp.userDelete uid] ++
          (if !u.pendingTasks.isEmpty then [StoreOp.taskUnassign u.pendingTasks] else []) ∧
      findUser (deleteUser db uid).db uid = none ∧
      (∀ t ∈ (deleteUser db uid).db.tasks, u.pendingTasks.contains t.id = true →
        t.assignedUser = "" ∧ t.assignedUserName = "unassigned")) := by
  constructor
  · intro hnone
    unfold deleteUser
    rw [hnone]
  · intro u hsome
    unfold deleteUser
    rw [hsome]
    refine ⟨rfl, rfl, ?_, ?_⟩
    · dsimp only
      cases hp : u.pendingTasks.isEmpty with
      | true =>
          simp only [hp, Bool.not_true, Bool.false_eq_true, if_false, List.append_nil]
          simp only [List.foldl, applyOp, findUser]
          rw [List.find?_filter]
          apply List.find?_eq_none.mpr
          intro x _
          simp
      | false =>
          simp only [hp, Bool.not_false, if_true]
          simp only [List.foldl, applyOp, findUser]
          rw [List.find?_filter]
          apply List.find?_eq_none.mpr
          intro x _
          simp
    · intro t htmem hpend
      dsimp only at htmem
      cases hp : u.pendingTasks.isEmpty with
      | true =>
          rw [List.isEmpty_iff] at hp
          rw [hp] at hpend
          exact Bool.noConfusion hpend
      | false =>
          rw [hp] at htmem
          simp only [Bool.not_false, if_true, List.foldl, applyOp] at htmem
          rcases List.mem_map.mp htmem with ⟨x, _, hx⟩
          rw [← hx]
          cases hc : u.pendingTasks.contains x.id with
          | true => simp [hc]
          | false =>
              rw [← hx] at hpend
              simp only [hc, Bool.false_eq_true, if_false] at hpend

/-- Witness for the C4 theorem at a concrete database: deleting Alice
succeeds with 204, removes her document and unassigns task t1. -/
theorem deleteUser_deletesThenUnassigns_witness :
    findUser dbA "u1" = some userAlice ∧
    (deleteUser dbA "u1").resp = Resp.noContent ∧
    findUser (deleteUser dbA "u1").db "u1" = none :=
  ⟨by decide,
    ((deleteUser_deletesThenUnassigns dbA "u1").2 userAlice (by decide)).1,
    ((deleteUser_deletesThenUnassigns dbA "u1").2 userAlice (by decide)).2.2.1⟩

/-- C4 counterexample: the claim asserts the compensating task updates
precede the user deletion, but on this concrete database the handler
issues the user-deletion write first and the task-unassign write second. -/
theorem deleteUser_order_counterexample :
    (deleteUser dbA "u1").ops = [StoreOp.userDelete "u1", StoreOp.taskUnassign ["t1"]] ∧
    unassignsPrecedeDelete (deleteUser dbA "u1").ops = false := by
  constructor
  · decide
  · decide

/-- C5: a Replace Task request aimed at a stored task whose completed
flag is true never changes the database and never succeeds; when the
request passes the field and assigned-user validations it fails with
exactly the "already completed" domain error (HTTP 400). -/
theorem putTask_completedImmutable
    (db : DB) (tid : String) (body : TaskBody) (t : TaskDoc)
    (hfind : findTask db tid = some t)
    (hc : t.completed = true) :
    (replaceTask db tid body).db = db ∧
    (replaceTask db tid body).ops = [] ∧
    400 ≤ statusOf (replaceTask db tid body).resp ∧
    (body.name ≠ "" → jsTruthy body.deadline = true →
      (∀ r, taskUserCheck db body true ≠ Except.error r) →
      (replaceTask db tid body).resp = Resp.alreadyCompletedError) := by
  unfold replaceTask
  split
  · next hcond =>
      refine ⟨rfl, rfl, Nat.le.refl, ?_⟩
      intro h1 h2 _
      rcases Bool.or_eq_true_iff.mp hcond with h | h
      · exact absurd (by simpa using h) h1
      · have hf : jsTruthy body.deadline = false := by simpa using h
        rw [h2] at hf
        exact Bool.noConfusion hf
  · next hreq =>
      cases hcheck : taskUserCheck db body true with
      | error r =>
          refine ⟨rfl, rfl, ?_, ?_⟩
          · rcases taskUserCheck_error_cases db body true r hcheck with h | h | h
            · rw [h]; exact (by norm_num : (400:Nat) ≤ 404)
            · rw [h]; exact Nat.le.refl
            · rw [h]; exact Nat.le.refl
          · intro _ _ hno
            exact absurd rfl (hno r)
      | ok vn =>
          rw [hfind]
          dsimp only
          rw [hc, if_pos rfl]
          exact ⟨rfl, rfl, Nat.le.refl, fun _ _ _ => rfl⟩

/-- Witness for the C5 theorem: replacing the completed task t2 leaves
the database untouched and reports the "already completed" error. -/
theorem putTask_completedImmutable_witness :
    findTask dbA "t2" = some taskTwo ∧ taskTwo.completed = true ∧
    (replaceTask dbA "t2" bodyFive).db = dbA ∧
    (replaceTask dbA "t2" bodyFive).resp = Resp.alreadyCompletedError :=
  ⟨by decide, by decide,
    (putTask_completedImmutable dbA "t2" bodyFive taskTwo (by decide) (by decide)).1,
    (putTask_completedImmutable dbA "t2" bodyFive taskTwo (by decide) (by decide)).2.2.2
      (by decide) (by decide)
      (fun r h => by
        have h2 : (Except.ok "unassigned" : Except Resp String) = Except.error r := h
        exact Except.noConfusion h2)⟩

/-- C2: a successful Replace Task on an existing non-completed task
issues exactly the user-change compensation (Case 1) first, the
completion-change compensation (Case 2) second and the primary
replacement last, and — in the reassignment scenario — removes the task
id from the old user's pendingTasks and set-adds it to the new user's. -/
theorem putTask_compensations
    (db : DB) (tid : String) (body : TaskBody) (oldTask : TaskDoc) (vn : String) (c : Bool)
    (hname : body.name ≠ "")
    (hdl : jsTruthy body.deadline = true)
    (hcheck : taskUserCheck db body true = Except.ok vn)
    (hfind : findTask db tid = some oldTask)
    (hnc : oldTask.completed = false)
    (hcast : castStoreBool (replaceCompletedStatus body.completed) = some c) :
    (replaceTask db tid body).resp = Resp.ok ∧
    (replaceTask db tid body).ops =
      userCompOps oldTask.assignedUser body.assignedUser tid
        (replaceCompletedStatus body.completed) ++
      completionCompOps oldTask.assignedUser body.assignedUser tid oldTask.completed
        (replaceCompletedStatus body.completed) ++
      [StoreOp.taskReplace tid
        { id := tid, name := body.name, deadline := sanitizeDeadlineReplace body.deadline,
          completed := c, assignedUser := body.assignedUser,
          assignedUserName := castStoreName body.assignedUserName }] ∧
    (replaceTask db tid body).db = (replaceTask db tid body).ops.foldl applyOp db ∧
    (∀ uo un,
      oldTask.assignedUser ≠ "" → body.assignedUser ≠ "" →
      oldTask.assignedUser ≠ body.assignedUser →
      replaceCompletedStatus body.completed = JsValue.bool false →
      findUser db oldTask.assignedUser = some uo →
      findUser db body.assignedUser = some un →
      findUser (replaceTask db tid body).db oldTask.assignedUser =
        some { uo with pendingTasks := uo.pendingTasks.filter (fun x => x != tid) } ∧
      findUser (replaceTask db tid body).db body.assignedUser =
        some { un with pendingTasks := addToSet un.pendingTasks tid }) := by
  unfold replaceTask
  split
  · next h =>
      rcases Bool.or_eq_true_iff.mp h with h | h
      · exact absurd (by simpa using h) hname
      · have hf : jsTruthy body.deadline = false := by simpa using h
        rw [hdl] at hf
        exact absurd hf (by decide)
  · rw [hcheck]
    dsimp only
    rw [hfind]
    dsimp only
    rw [hnc]
    rw [if_neg (fun hh => Bool.noConfusion hh)]
    rw [hcast]
    dsimp only
    refine ⟨rfl, rfl, rfl, ?_⟩
    intro uo un h1 h2 h3 hcs hfo hfn
    have huo : uo.id = oldTask.assignedUser := findUser_id db _ uo hfo
    have hun : un.id = body.assignedUser := findUser_id db _ un hfn
    have hops1 : userCompOps oldTask.assignedUser body.assignedUser tid (JsValue.bool false) =
        [StoreOp.userPull oldTask.assignedUser tid,
         StoreOp.userAddToSet body.assignedUser tid] := by
      simp [userCompOps, jsTruthy, h1, h2, h3]
    have hops2 : completionCompOps oldTask.assignedUser body.assignedUser tid
        false (JsValue.bool false) = [] := by
      simp [completionCompOps]
    rw [hcs, hops1, hops2]
    simp only [List.append_nil, List.cons_append, List.nil_append]
    simp only [List.foldl_cons, List.foldl_nil]
    rw [findUser_applyOp_taskReplace, findUser_applyOp_taskReplace]
    rw [findUser_applyOp_userAddToSet, findUser_applyOp_userAddToSet]
    rw [findUser_applyOp_userPull, findUser_applyOp_userPull]
    rw [hfo, hfn]
    simp only [Option.map_some']
    constructor
    · rw [huo]
      have e1 : (oldTask.assignedUser == oldTask.assignedUser) = true := beq_self_eq_true _
      rw [e1]
      simp only [if_true]
      have e2 : (oldTask.assignedUser == body.assignedUser) = false := by
        exact beq_eq_false_iff_ne.mpr h3
      rw [e2]
      simp
    · have e1 : (un.id == oldTask.assignedUser) = false := by
        rw [hun]
        exact beq_eq_false_iff_ne.mpr (fun hh => h3 hh.symm)
      rw [e1]
      simp only [Bool.false_eq_true, if_false]
      have e2 : (un.id == body.assignedUser) = true := by
        rw [hun]
        exact beq_self_eq_true _
      rw [e2]
      simp

/-- Witness for the C2 theorem: reassigning task t1 from Alice to Bob
succeeds, empties Alice's pendingTasks and set-adds t1 to Bob's. -/
theorem putTask_compensations_witness :
    bodyReassign.name ≠ "" ∧
    jsTruthy bodyReassign.deadline = true ∧
    taskUserCheck dbA bodyReassign true = Except.ok "Bob" ∧
    findTask dbA "t1" = some taskOne ∧
    taskOne.completed = false ∧
    castStoreBool (replaceCompletedStatus bodyReassign.completed) = some false ∧
    (replaceTask dbA "t1" bodyReassign).resp = Resp.ok ∧
    (findUser (replaceTask dbA "t1" bodyReassign).db taskOne.assignedUser =
        some { userAlice with
          pendingTasks := userAlice.pendingTasks.filter (fun x => x != "t1") } ∧
      findUser (replaceTask dbA "t1" bodyReassign).db bodyReassign.assignedUser =
        some { userBob with pendingTasks := addToSet userBob.pendingTasks "t1" }) :=
  ⟨by decide, by decide, rfl, by decide, by decide, by decide,
    (putTask_compensations dbA "t1" bodyReassign taskOne "Bob" false
      (by decide) (by decide) rfl (by decide) (by decide) (by decide)).1,
    (putTask_compensations dbA "t1" bodyReassign taskOne "Bob" false
      (by decide) (by decide) rfl (by decide) (by decide) (by decide)).2.2.2
      userAlice userBob
      (by decide) (by decide) (by decide) (by decide) (by decide) (by decide)⟩

/-- C3: a successful Create Task with a non-empty assigned user and
completed = false persists the task and then set-adds its id to that
user's pendingTasks; the add is idempotent and never introduces a
duplicate. -/
theorem postTask_addToSet_idempotent
    (db : DB) (freshId : String) (body : TaskBody) (u : User)
    (hname : body.name ≠ "")
    (hdl : jsTruthy body.deadline = true)
    (hau : body.assignedUser ≠ "")
    (hfind : findUser db body.assignedUser = some u)
    (hmatch : body.assignedUserName = JsValue.str u.name)
    (hnc : createCompletedStatus body.completed = false) :
    (createTask db freshId body).resp = Resp.created ∧
    (createTask db freshId body).ops =
      [StoreOp.taskInsert
        { id := freshId, name := body.name, deadline := createDeadline body.deadline,
          completed := createCompletedStatus body.completed,
          assignedUser := body.assignedUser, assignedUserName := u.name },
       StoreOp.userAddToSet body.assignedUser freshId] ∧
    findUser (createTask db freshId body).db body.assignedUser =
      some { u with pendingTasks := addToSet u.pendingTasks freshId } ∧
    freshId ∈ addToSet u.pendingTasks freshId ∧
    addToSet (addToSet u.pendingTasks freshId) freshId = addToSet u.pendingTasks freshId ∧
    (u.pendingTasks.Nodup → (addToSet u.pendingTasks freshId).Nodup) := by
  unfold createTask
  split
  · next h =>
      rcases Bool.or_eq_true_iff.mp h with h | h
      · exact absurd (by simpa using h) hname
      · have hf : jsTruthy body.deadline = false := by simpa using h
        rw [hdl] at hf
        exact absurd hf (by decide)
  · have hcheck : taskUserCheck db body false = Except.ok u.name := by
      unfold taskUserCheck
      have hb : (body.assignedUser != "") = true := by simpa using hau
      rw [hb, if_pos rfl, hfind]
      dsimp only
      have hm : (body.assignedUserName != JsValue.str u.name) = false := by
        rw [hmatch]
        simp
      rw [hm]
      simp
    rw [hcheck]
    dsimp only
    rw [hnc]
    have hb2 : (body.assignedUser != "" && !false) = true := by
      simp only [Bool.not_false, Bool.and_true]
      simpa using hau
    rw [hb2, if_pos rfl]
    refine ⟨rfl, rfl, ?_, mem_addToSet_self _ _, addToSet_idem _ _,
      fun h => addToSet_nodup _ _ h⟩
    simp only [List.singleton_append, List.foldl_cons, List.foldl_nil]
    rw [findUser_applyOp_userAddToSet, findUser_applyOp_taskInsert, hfind]
    simp only [Option.map_some']
    have hu : u.id = body.assignedUser := findUser_id db _ u hfind
    have e : (u.id == body.assignedUser) = true := by
      rw [hu]
      exact beq_self_eq_true _
    rw [e]
    simp

/-- Witness for the C3 theorem: creating task t9 assigned to Bob returns
201 and set-adds t9 to Bob's pendingTasks. -/
theorem postTask_addToSet_idempotent_witness :
    findUser dbA "u2" = some userBob ∧
    createCompletedStatus bodyCreate.completed = false ∧
    (createTask dbA "t9" bodyCreate).resp = Resp.created ∧
    findUser (createTask dbA "t9" bodyCreate).db bodyCreate.assignedUser =
      some { userBob with pendingTasks := addToSet userBob.pendingTasks "t9" } ∧
    addToSet (addToSet userBob.pendingTasks "t9") "t9" = addToSet userBob.pendingTasks "t9" :=
  ⟨by decide, by decide,
    (postTask_addToSet_idempotent dbA "t9" bodyCreate userBob
      (by decide) (by decide) (by decide) (by decide) (by decide) (by decide)).1,
    (postTask_addToSet_idempotent dbA "t9" bodyCreate userBob
      (by decide) (by decide) (by decide) (by decide) (by decide) (by decide)).2.2.1,
    (postTask_addToSet_idempotent dbA "t9" bodyCreate userBob
      (by decide) (by decide) (by decide) (by decide) (by decide) (by decide)).2.2.2.2.1⟩

/-- The required-fields test of the task handlers is false when name is
non-empty and deadline truthy. -/
theorem taskReqFalse (body : TaskBody) (hname : body.name ≠ "")
    (hdl : jsTruthy body.deadline = true) :
    (body.name == "" || !jsTruthy body.deadline) = false := by
  rw [hdl]
  simp [hname]

/-- C6 (amended): for Create Task and Replace Task, a provided
assignedUser must reference an existing user (404 otherwise) whose name
strictly equals the supplied assignedUserName (400 on mismatch); on
replace with no assignedUser, a *truthy* assignedUserName other than
"unassigned" is rejected (an absent or empty one is accepted); on create
with no assignedUser the stored assignedUserName is forced to
"unassigned". -/
theorem taskAssignedUserValidation
    (db : DB) (tid fid : String) (body : TaskBody)
    (hname : body.name ≠ "") (hdl : jsTruthy body.deadline = true) :
    (body.assignedUser ≠ "" → findUser db body.assignedUser = none →
      createTask db fid body = { resp := Resp.assignedUserMissing, db := db, ops := [] } ∧
      replaceTask db tid body = { resp := Resp.assignedUserMissing, db := db, ops := [] }) ∧
    (∀ u, body.assignedUser ≠ "" → findUser db body.assignedUser = some u →
      body.assignedUserName ≠ JsValue.str u.name →
      createTask db fid body = { resp := Resp.nameMismatchError, db := db, ops := [] } ∧
      replaceTask db tid body = { resp := Resp.nameMismatchError, db := db, ops := [] }) ∧
    (body.assignedUser = "" → jsTruthy body.assignedUserName = true →
      body.assignedUserName ≠ JsValue.str "unassigned" →
      replaceTask db tid body = { resp := Resp.unassignedNameError, db := db, ops := [] }) ∧
    (body.assignedUser = "" →
      createTask db fid body =
        { resp := Resp.created,
          db := applyOp db (StoreOp.taskInsert
            { id := fid, name := body.name, deadline := createDeadline body.deadline,
              completed := createCompletedStatus body.completed, assignedUser := "",
              assignedUserName := "unassigned" }),
          ops := [StoreOp.taskInsert
            { id := fid, name := body.name, deadline := createDeadline body.deadline,
              completed := createCompletedStatus body.completed, assignedUser := "",
              assignedUserName := "unassigned" }] }) := by
  have hreq := taskReqFalse body hname hdl
  refine ⟨?_, ?_, ?_, ?_⟩
  · intro hau hnone
    have hb : (body.assignedUser != "") = true := by simpa using hau
    have hc0 : taskUserCheck db body false = Except.error Resp.assignedUserMissing := by
      unfold taskUserCheck
      rw [hb, if_pos rfl, hnone]
    have hc1 : taskUserCheck db body true = Except.error Resp.assignedUserMissing := by
      unfold taskUserCheck
      rw [hb, if_pos rfl, hnone]
    constructor
    · unfold createTask
      rw [hreq, if_neg (fun h => Bool.noConfusion h), hc0]
    · unfold replaceTask
      rw [hreq, if_neg (fun h => Bool.noConfusion h), hc1]
  · intro u hau hsome hmis
    have hb : (body.assignedUser != "") = true := by simpa using hau
    have hm : (body.assignedUserName != JsValue.str u.name) = true := by simpa using hmis
    have hc0 : taskUserCheck db body false = Except.error Resp.nameMismatchError := by
      unfold taskUserCheck
      rw [hb, if_pos rfl, hsome]
      dsimp only
      rw [hm, if_pos rfl]
    have hc1 : taskUserCheck db body true = Except.error Resp.nameMismatchError := by
      unfold taskUserCheck
      rw [hb, if_pos rfl, hsome]
      dsimp only
      rw [hm, if_pos rfl]
    constructor
    · unfold createTask
      rw [hreq, if_neg (fun h => Bool.noConfusion h), hc0]
    · unfold replaceTask
      rw [hreq, if_neg (fun h => Bool.noConfusion h), hc1]
  · intro hau htr hne
    have hb : (body.assignedUser != "") = false := by simp [hau]
    have hc1 : taskUserCheck db body true = Except.error Resp.unassignedNameError := by
      unfold taskUserCheck
      rw [hb, if_neg (fun h => Bool.noConfusion h)]
      have hcond : (true && (jsTruthy body.assignedUserName &&
          (body.assignedUserName != JsValue.str "unassigned"))) = true := by
        rw [htr]
        simpa using hne
      rw [hcond, if_pos rfl]
    unfold replaceTask
    rw [hreq, if_neg (fun h => Bool.noConfusion h), hc1]
  · intro hau
    have hb : (body.assignedUser != "") = false := by simp [hau]
    have hc0 : taskUserCheck db body false = Except.ok "unassigned" := by
      unfold taskUserCheck
      rw [hb, if_neg (fun h => Bool.noConfusion h)]
      simp
    unfold createTask
    rw [hreq, if_neg (fun h => Bool.noConfusion h), hc0]
    dsimp only
    have hb2 : (body.assignedUser != "" && !(createCompletedStatus body.completed)) = false := by
      rw [hau]
      simp
    rw [hb2, if_neg (fun h => Bool.noConfusion h)]
    rw [hau]
    simp only [List.append_nil, List.foldl_cons, List.foldl_nil]

/-- Witness for the C6 theorem: creating or replacing with an
assignedUser that references no user fails with 404 and no writes. -/
theorem taskAssignedUserValidation_witness :
    ({ bodyCreate with assignedUser := "zz" } : TaskBody).assignedUser ≠ "" ∧
    findUser dbA "zz" = none ∧
    createTask dbA "t9" { bodyCreate with assignedUser := "zz" } =
      { resp := Resp.assignedUserMissing, db := dbA, ops := [] } ∧
    replaceTask dbA "t1" { bodyCreate with assignedUser := "zz" } =
      { resp := Resp.assignedUserMissing, db := dbA, ops := [] } :=
  ⟨by decide, by decide,
    ((taskAssignedUserValidation dbA "t1" "t9" { bodyCreate with assignedUser := "zz" }
        (by decide) (by decide)).1 (by decide) (by decide)).1,
    ((taskAssignedUserValidation dbA "t1" "t9" { bodyCreate with assignedUser := "zz" }
        (by decide) (by decide)).1 (by decide) (by decide)).2⟩

/-- C6 counterexample: the claim requires a Replace Task with empty
assignedUser to carry assignedUserName exactly "unassigned", yet a
request omitting assignedUserName entirely (undefined, not the string
"unassigned") is accepted with 200 instead of a ValidationError. -/
theorem taskAssignedUserValidation_counterexample :
    bodyFive.assignedUser = "" ∧
    bodyFive.assignedUserName ≠ JsValue.str "unassigned" ∧
    (replaceTask dbA "t1" bodyFive).resp = Resp.ok ∧
    statusOf (replaceTask dbA "t1" bodyFive).resp = 200 := by
  exact ⟨rfl, by decide, by decide, by decide⟩

/-- C7 (amended): a malformed where/sort/select parameter is ignored
with a warning — the interpreter records no clause and the list request
behaves exactly as if the parameter were absent — and the interpreter
never errors; but an unparseable skip/limit is not coerced to a
default: the interpreter records parseInt's NaN in the specification. -/
theorem queryInterpreterLenient (jp : String → Option Json) (qp : QueryParams) :
    (∀ s, qp.whereQ = some s → s ≠ "" → jp s = none →
      (parseQuery jp qp).1.whereJson = none ∧
      Warn.badWhere ∈ (parseQuery jp qp).2 ∧
      (parseQuery jp qp).1 = (parseQuery jp { qp with whereQ := none }).1 ∧
      (∀ S db2, (getUsers S jp db2 qp).1 = (getUsers S jp db2 { qp with whereQ := none }).1)) ∧
    (∀ s, qp.sortQ = some s → s ≠ "" → jp s = none →
      (parseQuery jp qp).1.sortJson = none ∧
      Warn.badSort ∈ (parseQuery jp qp).2 ∧
      (parseQuery jp qp).1 = (parseQuery jp { qp with sortQ := none }).1) ∧
    (∀ s, qp.selectQ = some s → s ≠ "" → jp s = none →
      (parseQuery jp qp).1.selectJson = none ∧
      Warn.badSelect ∈ (parseQuery jp qp).2 ∧
      (parseQuery jp qp).1 = (parseQuery jp { qp with selectQ := none }).1) ∧
    (∀ s, qp.skipQ = some s → s ≠ "" → jsParseIntCore s = none →
      (parseQuery jp qp).1.skipNum = some JsNum.nan) ∧
    (∀ p, qp.limitQ = some p → jsTruthyPrim p = true → jsParseIntPrim p = JsNum.nan →
      (parseQuery jp qp).1.limitNum = some JsNum.nan) := by
  refine ⟨?_, ?_, ?_, ?_, ?_⟩
  · intro s hw hs hj
    have hb : (s != "") = true := by simpa using hs
    have hspec : (parseQuery jp qp).1 = (parseQuery jp { qp with whereQ := none }).1 := by
      simp [parseQuery, hw, hb, hj]
    refine ⟨?_, ?_, hspec, ?_⟩
    · simp [parseQuery, hw, hb, hj]
    · simp [parseQuery, hw, hb, hj]
    · intro S db2
      unfold getUsers
      dsimp only
      rw [hspec]
      cases hcq : (qp.countQ == some "true") <;> simp [hcq]
  · intro s hw hs hj
    have hb : (s != "") = true := by simpa using hs
    refine ⟨?_, ?_, ?_⟩
    · simp [parseQuery, hw, hb, hj]
    · simp [parseQuery, hw, hb, hj]
    · simp [parseQuery, hw, hb, hj]
  · intro s hw hs hj
    have hb : (s != "") = true := by simpa using hs
    refine ⟨?_, ?_, ?_⟩
    · simp [parseQuery, hw, hb, hj]
    · simp [parseQuery, hw, hb, hj]
    · simp [parseQuery, hw, hb, hj]
  · intro s hw hs hj
    have hb : (s != "") = true := by simpa using hs
    simp [parseQuery, hw, hb, jsParseIntNum, hj]
  · intro p hw ht hj
    simp [parseQuery, hw, ht, hj]

/-- Witness for the C7 theorem: with a failing JSON.parse and parameters
where=phrase, skip=abc, the where clause is dropped with a warning and
the skip slot records NaN. -/
theorem queryInterpreterLenient_witness :
    (({ whereQ := some "x", skipQ := some "abc" } : QueryParams).whereQ = some "x") ∧
    jpNone "x" = none ∧
    (parseQuery jpNone { whereQ := some "x", skipQ := some "abc" }).1.whereJson = none ∧
    Warn.badWhere ∈ (parseQuery jpNone { whereQ := some "x", skipQ := some "abc" }).2 ∧
    (parseQuery jpNone { whereQ := some "x", skipQ := some "abc" }).1.skipNum =
      some JsNum.nan :=
  ⟨rfl, rfl,
    ((queryInterpreterLenient jpNone { whereQ := some "x", skipQ := some "abc" }).1
      "x" rfl (by decide) rfl).1,
    ((queryInterpreterLenient jpNone { whereQ := some "x", skipQ := some "abc" }).1
      "x" rfl (by decide) rfl).2.1,
    ((queryInterpreterLenient jpNone { whereQ := some "x", skipQ := some "abc" }).2.2.2.1
      "abc" rfl (by decide) (by decide))⟩

/-- C7 counterexample: for skip=abc (unparseable), the interpreter does
not coerce the skip clause to its default — it stores NaN, which is
neither the absent default nor zero. -/
theorem queryInterpreter_skip_counterexample :
    (parseQuery jpNone { skipQ := some "abc" }).1.skipNum = some JsNum.nan ∧
    some JsNum.nan ≠ (none : Option JsNum) ∧
    JsNum.nan ≠ JsNum.int 0 :=
  ⟨rfl, by decide, by decide⟩

/-- A specification whose limit clause is the integer n yields at most
n.toNat documents. -/
theorem applySpec_length_le {α : Type} (S : StoreSem α) (spec : ReadSpec)
    (docs : List α) (n : Int) (h : spec.limitNum = some (JsNum.int n)) :
    (applySpec S spec docs).length ≤ n.toNat := by
  unfold applySpec
  rw [h]
  cases hsel : spec.selectJson <;> simp [List.length_take]

/-- A specification with no skip and no limit clause returns exactly the
filtered documents (sorting and projection preserve length). -/
theorem applySpec_length_noLimit {α : Type} (S : StoreSem α) (spec : ReadSpec)
    (docs : List α) (h1 : spec.skipNum = none) (h2 : spec.limitNum = none) :
    (applySpec S spec docs).length =
      (match spec.whereJson with
        | some j => docs.filter (S.whereMatch j)
        | none => docs).length := by
  unfold applySpec
  rw [h1, h2]
  cases hsel : spec.selectJson <;> cases hso : spec.sortJson <;>
    simp [List.length_map, sortByLe_length]

/-- `matchingDocs` agrees with the where clause recorded by `parseQuery`. -/
theorem matchingDocs_eq {α : Type} (S : StoreSem α) (jp : String → Option Json)
    (qp : QueryParams) (docs : List α) :
    matchingDocs S jp qp docs =
      (match (parseQuery jp qp).1.whereJson with
        | some j => docs.filter (S.whereMatch j)
        | none => docs) := by
  unfold matchingDocs parseQuery
  cases hw : qp.whereQ with
  | none => rfl
  | some s =>
      cases hb : (s != "") with
      | false => simp [hb]
      | true =>
          cases hj : jp s with
          | none => simp [hb, hj]
          | some j => simp [hb, hj]

/-- C8: a GET /tasks with no limit parameter returns at most 100
documents (the handler injects the default limit 100), while a GET
/users with no limit (and no skip) returns every matching document,
with no implicit cap. -/
theorem listLimitDefaults
    (S : StoreSem TaskDoc) (S2 : StoreSem User) (jp : String → Option Json)
    (db : DB) (qp : QueryParams) :
    (qp.limitQ = none → ∀ l, (getTasks S jp db qp).1 = ListOut.docs l →
      l.length ≤ 100) ∧
    (qp.limitQ = none → qp.skipQ = none → ∀ l, (getUsers S2 jp db qp).1 = ListOut.docs l →
      l.length = (matchingDocs S2 jp qp db.users).length) := by
  constructor
  · intro hl l hdoc
    unfold getTasks at hdoc
    rw [hl] at hdoc
    dsimp only at hdoc
    have hlim : (parseQuery jp { qp with limitQ := some (JsPrim.num 100) }).1.limitNum =
        some (JsNum.int 100) := by
      simp [parseQuery, jsTruthyPrim, jsParseIntPrim]
    cases hcq : (qp.countQ == some "true") with
    | true =>
        rw [hcq] at hdoc
        simp at hdoc
    | false =>
        rw [hcq] at hdoc
        simp only [Bool.false_eq_true, if_false] at hdoc
        have hle := applySpec_length_le S
          (parseQuery jp { qp with limitQ := some (JsPrim.num 100) }).1 db.tasks 100 hlim
        have hl2 : l = applySpec S
            (parseQuery jp { qp with limitQ := some (JsPrim.num 100) }).1 db.tasks := by
          have := hdoc
          injection this with h2
          exact h2.symm
        rw [hl2]
        exact hle
  · intro hl hs l hdoc
    unfold getUsers at hdoc
    dsimp only at hdoc
    have h1 : (parseQuery jp qp).1.skipNum = none := by
      simp [parseQuery, hs]
    have h2 : (parseQuery jp qp).1.limitNum = none := by
      simp [parseQuery, hl]
    cases hcq : (qp.countQ == some "true") with
    | true =>
        rw [hcq] at hdoc
        simp at hdoc
    | false =>
        rw [hcq] at hdoc
        simp only [Bool.false_eq_true, if_false] at hdoc
        have hl2 : l = applySpec S2 (parseQuery jp qp).1 db.users := by
          injection hdoc with h3
          exact h3.symm
        rw [hl2, applySpec_length_noLimit S2 _ _ h1 h2, matchingDocs_eq]

/-- Witness for the C8 theorem: 150 stored tasks, no query parameters —
the task list returns at most 100 documents while the user list returns
exactly the matching users. -/
theorem listLimitDefaults_witness :
    (({} : QueryParams).limitQ = none) ∧
    (docsOf (getTasks semTrivTask jpNone dbMany {}).1).length ≤ 100 ∧
    (docsOf (getUsers semTrivUser jpNone dbA {}).1).length =
      (matchingDocs semTrivUser jpNone {} dbA.users).length :=
  ⟨rfl,
    (listLimitDefaults semTrivTask semTrivUser jpNone dbMany {}).1 rfl
      (docsOf (getTasks semTrivTask jpNone dbMany {}).1) rfl,
    (listLimitDefaults semTrivTask semTrivUser jpNone dbA {}).2 rfl rfl
      (docsOf (getUsers semTrivUser jpNone dbA {}).1) rfl⟩

/-- C9 (amended): on create, `completed` becomes true only for the
literal string "true" — every other value, including the JS boolean
true, yields false; on replace, a string is coerced with `=== 'true'`
and every non-string value is passed through unchanged. -/
theorem completedCoercion :
    (createCompletedStatus (JsValue.str "true") = true) ∧
    (∀ v, v ≠ JsValue.str "true" → createCompletedStatus v = false) ∧
    (∀ b, createCompletedStatus (JsValue.bool b) = false) ∧
    (∀ s, replaceCompletedStatus (JsValue.str s) = JsValue.bool (s == "true")) ∧
    (∀ b, replaceCompletedStatus (JsValue.bool b) = JsValue.bool b) ∧
    (replaceCompletedStatus JsValue.undef = JsValue.undef) ∧
    (replaceCompletedStatus JsValue.nullV = JsValue.nullV) ∧
    (∀ n, replaceCompletedStatus (JsValue.num n) = JsValue.num n) := by
  refine ⟨rfl, ?_, ?_, fun s => rfl, fun b => rfl, rfl, rfl, fun n => rfl⟩
  · intro v hv
    unfold createCompletedStatus
    exact beq_eq_false_iff_ne.mpr hv
  · intro b
    unfold createCompletedStatus
    exact beq_eq_false_iff_ne.mpr (fun h => JsValue.noConfusion h)

/-- Witness for the C9 theorem: a numeric `completed` is false on create
and passed through on replace. -/
theorem completedCoercion_witness :
    (JsValue.num 7 ≠ JsValue.str "true") ∧
    createCompletedStatus (JsValue.num 7) = false ∧
    replaceCompletedStatus (JsValue.num 7) = JsValue.num 7 :=
  ⟨by decide, completedCoercion.2.1 (JsValue.num 7) (by decide),
    completedCoercion.2.2.2.2.2.2.2 7⟩

/-- C9 counterexample: supplying the JS boolean true for `completed` on
Create Task stores completed = false — a supplied boolean does not keep
its value on create. -/
theorem completedCoercion_counterexample :
    createCompletedStatus (JsValue.bool true) = false ∧
    ((createTask dbEmpty "t9" bodyBoolTrue).db.tasks.map (fun t => t.completed)) = [false] ∧
    ¬ ((createTask dbEmpty "t9" bodyBoolTrue).db.tasks.map (fun t => t.completed) = [true]) :=
  ⟨rfl, by decide, by decide⟩

/-- C10 (amended): compensations only run on a stored task that is not
completed (so wasCompleted is always false there), and when the
sanitized `completed` value is a boolean the completion-change
compensation never adds — but a non-boolean falsy `completed` (for
example an absent field) does reach the add branch. -/
theorem completionCompensation_boolOnlyRemoves :
    (∀ db tid body, (replaceTask db tid body).ops ≠ [] →
      ∃ t, findTask db tid = some t ∧ t.completed = false) ∧
    (∀ o n tid b op, op ∈ completionCompOps o n tid false (JsValue.bool b) →
      isAddToSetOp op = false) := by
  constructor
  · intro db tid body hops
    unfold replaceTask at hops
    split at hops
    · exact absurd rfl hops
    · split at hops
      · exact absurd rfl hops
      · split at hops
        · exact absurd rfl hops
        · next oldTask hfind =>
            split at hops
            · exact absurd rfl hops
            · next hcmp =>
                exact ⟨oldTask, hfind, by simpa using hcmp⟩
  · intro o n tid b op hop
    unfold completionCompOps at hop
    cases b with
    | false => simp at hop
    | true =>
        split at hop
        · simp [jsTruthy] at hop
          rw [hop]
          rfl
        · simp at hop

/-- C10 counterexample: replacing task t1 (assigned to u1, not
completed) keeping assignedUser = u1 but omitting `completed` makes the
completion-change compensation execute its add branch: the handler
issues a $addToSet write, which the claim deems unreachable. -/
theorem completionCompensation_counterexample :
    (replaceTask dbA "t1" bodyTen).ops =
      [StoreOp.userAddToSet "u1" "t1",
       StoreOp.taskReplace "t1"
         { id := "t1", name := "T2", deadline := JsValue.num 5, completed := false,
           assignedUser := "u1", assignedUserName := "Alice" }] ∧
    completionCompOps "u1" "u1" "t1" false JsValue.undef = [StoreOp.userAddToSet "u1" "t1"] ∧
    isAddToSetOp (StoreOp.userAddToSet "u1" "t1") = true :=
  ⟨by decide, by decide, rfl⟩

/-- Witness for the C10 theorem: a boolean completed value produces a
remove-only completion compensation, and a run with nonempty writes
implies the stored task existed and was not completed. -/
theorem completionCompensation_boolOnlyRemoves_witness :
    completionCompOps "u1" "u1" "t1" false (JsValue.bool true) = [StoreOp.userPull "u1" "t1"] ∧
    isAddToSetOp (StoreOp.userPull "u1" "t1") = false ∧
    (∃ t, findTask dbA "t1" = some t ∧ t.completed = false) :=
  ⟨by decide,
    completionCompensation_boolOnlyRemoves.2 "u1" "u1" "t1" true
      (StoreOp.userPull "u1" "t1") (by decide),
    completionCompensation_boolOnlyRemoves.1 dbA "t1" bodyReassign (by decide)⟩
